import Mathlib

/-!
Verification of the deployment pipeline of the hostingke repository.

The development shallowly embeds the deployment-queue and build-executor
code (src/services/deploymentQueue.js, src/services/deployment.js,
src/routes/webhooks.js and the exec-based deployment service variant)
as pure Lean functions over an explicit record store, plus a small-step
system model whose actions are the scheduler scan, the executor stage
steps, and the retry/cancel controller operations.

Conventions:
* the deployment store is a list of records in creation order (the
  scheduler queries order by created_at ascending);
* record ids are primary keys in the database, so well-formedness
  hypotheses assert that the listed ids are pairwise distinct;
* JavaScript truthiness of optional strings (undefined or empty string
  is falsy) is modelled by jsTruthy and the default operator by jsOrStr.
-/

/-- Deployment status enum, from the deployment_status Postgres type. -/
inductive Status where
  | queued
  | building
  | ready
  | error
  | cancelled
deriving DecidableEq, Repr

/-- The error column written by updateDeploymentStatus: the code stores
an object with a message field; no step field is ever written, which the
model records as an always-absent optional field. -/
structure ErrInfo where
  message : String
  step : Option String
deriving DecidableEq, Repr

/-- One row of the deployments table (the columns the pipeline touches). -/
structure DeploymentRec where
  id : Nat
  projectId : Nat
  commitSha : Option String
  commitMessage : String
  branch : String
  status : Status
  environment : String
  buildLog : List String
  errorInfo : Option ErrInfo
  buildTime : Option Nat
  size : Option Nat
deriving DecidableEq, Repr

/-- repository JSON column of a project: url and branch. -/
structure RepoRef where
  url : String
  branch : String
deriving DecidableEq, Repr

/-- build_settings JSON column of a project. -/
structure BuildSettings where
  command : Option String
  directory : String
deriving DecidableEq, Repr

/-- One row of the projects table (the columns the pipeline touches). -/
structure Project where
  id : Nat
  name : String
  slug : String
  repository : Option RepoRef
  buildSettings : BuildSettings
deriving DecidableEq, Repr

/-- commitInfo object assembled by the webhook handlers. -/
structure CommitInfo where
  commitSha : Option String
  commitMessage : Option String
  branch : Option String
deriving DecidableEq, Repr

/-- JavaScript truthiness of an optional string: undefined and the empty
string are falsy. -/
def jsTruthy (o : Option String) : Bool :=
  match o with
  | some s => s != ""
  | none => false

/-- JavaScript a || b for an optional string a with default b. -/
def jsOrStr (o : Option String) (dflt : String) : String :=
  match o with
  | some s => if s == "" then dflt else s
  | none => dflt

/-- getDeployment: first row whose id matches (ids are unique in the DB). -/
def findDep (ds : List DeploymentRec) (did : Nat) : Option DeploymentRec :=
  ds.find? (fun d => d.id == did)

/-- Status of a deployment id as seen in the store. -/
def statusOf (ds : List DeploymentRec) (did : Nat) : Option Status :=
  (findDep ds did).map (fun d => d.status)

/-- Persisted build log of a deployment id ([] when absent). -/
def logOf (ds : List DeploymentRec) (did : Nat) : List String :=
  ((findDep ds did).map (fun d => d.buildLog)).getD []

/-- Persisted error column of a deployment id. -/
def errorOf (ds : List DeploymentRec) (did : Nat) : Option ErrInfo :=
  (findDep ds did).bind (fun d => d.errorInfo)

/-- updateDeployment with a bare {status} patch. -/
def setStatus (ds : List DeploymentRec) (did : Nat) (st : Status) : List DeploymentRec :=
  ds.map fun d => if d.id == did then { d with status := st } else d

/-- DeploymentService.updateDeploymentStatus: unconditionally writes the
given status; when the status is error it also writes error = {message}
(and only a message - no step). -/
def updateDeploymentStatus (ds : List DeploymentRec) (did : Nat) (st : Status)
    (message : String) : List DeploymentRec :=
  ds.map fun d =>
    if d.id == did then
      if st = Status.error then
        { d with status := st, errorInfo := some ⟨message, none⟩ }
      else
        { d with status := st }
    else d

/-- The executor success write (buildAndDeploy step 6): status ready
plus build_time and size. -/
def setReady (ds : List DeploymentRec) (did : Nat) (bt sz : Nat) : List DeploymentRec :=
  ds.map fun d =>
    if d.id == did then
      { d with status := Status.ready, buildTime := some bt, size := some sz }
    else d

/-- saveBuildLog: read the row, push the message, write the log back. -/
def saveBuildLog (ds : List DeploymentRec) (did : Nat) (message : String) : List DeploymentRec :=
  ds.map fun d =>
    if d.id == did then { d with buildLog := d.buildLog ++ [message] } else d

/-- DeploymentQueue.cancelDeployment: look the row up, reject unless its
status is queued or building, otherwise write status cancelled. -/
def cancelDeployment (ds : List DeploymentRec) (did : Nat) :
    Except String (List DeploymentRec) :=
  match findDep ds did with
  | none => Except.error "Deployment not found"
  | some d =>
    if d.status = Status.queued ∨ d.status = Status.building then
      Except.ok (setStatus ds did Status.cancelled)
    else
      Except.error "Cannot cancel deployment in current state"

/-- The log marker appended by retryFailedDeployment. -/
def retryMarker : String := "--- Retrying deployment ---"

/-- DeploymentQueue.retryFailedDeployment: look the row up, reject unless
its status is error, otherwise write status queued, clear the error
column and append the retry marker to the fetched build log. -/
def retryFailedDeployment (ds : List DeploymentRec) (did : Nat) :
    Except String (List DeploymentRec) :=
  match findDep ds did with
  | none => Except.error "Deployment not found"
  | some d =>
    if d.status = Status.error then
      Except.ok (ds.map fun r =>
        if r.id == did then
          { r with status := Status.queued, errorInfo := none,
                   buildLog := d.buildLog ++ [retryMarker] }
        else r)
    else
      Except.error "Can only retry failed deployments"

/-- Primary-key well-formedness: deployment ids are pairwise distinct. -/
def idsNodup (ds : List DeploymentRec) : Prop :=
  (ds.map (fun d => d.id)).Nodup

instance (ds : List DeploymentRec) : Decidable (idsNodup ds) := by
  unfold idsNodup
  infer_instance

/-- A find? hit matches the predicate and is a member of the list. -/
theorem findDep_eq_some {ds : List DeploymentRec} {did : Nat} {d : DeploymentRec}
    (h : findDep ds did = some d) : d ∈ ds ∧ d.id = did := by
  refine ⟨List.mem_of_find?_eq_some h, ?_⟩
  have hp := List.find?_some h
  simpa using hp

/-- With distinct ids, two members sharing an id are the same record. -/
theorem eq_of_idsNodup {ds : List DeploymentRec} (hn : idsNodup ds)
    {a b : DeploymentRec} (ha : a ∈ ds) (hb : b ∈ ds) (hid : a.id = b.id) :
    a = b := by
  exact List.inj_on_of_nodup_map hn ha hb hid

/-- find? over an id-preserving map is the map of find?. -/
theorem findDep_map (ds : List DeploymentRec) (did : Nat)
    (f : DeploymentRec → DeploymentRec) (hid : ∀ d, (f d).id = d.id) :
    findDep (ds.map f) did = (findDep ds did).map f := by
  unfold findDep
  rw [List.find?_map]
  have hfun : ((fun d => d.id == did) ∘ f) = (fun d : DeploymentRec => d.id == did) := by
    funext d
    simp [Function.comp, hid d]
  rw [hfun]

/-- C6: retryFailedDeployment succeeds exactly on status error; success
re-queues, clears the error column and appends the retry marker after the
unchanged prior log; any other status is rejected, with no write. -/
theorem c6_retry_correct (ds : List DeploymentRec) (did : Nat) (d : DeploymentRec)
    (hfind : findDep ds did = some d) :
    (d.status = Status.error →
      ∃ ds2, retryFailedDeployment ds did = Except.ok ds2
        ∧ statusOf ds2 did = some Status.queued
        ∧ errorOf ds2 did = none
        ∧ logOf ds2 did = logOf ds did ++ [retryMarker])
  ∧ (d.status ≠ Status.error →
      retryFailedDeployment ds did = Except.error "Can only retry failed deployments") := by
  have hd := findDep_eq_some hfind
  constructor
  · intro herr
    refine ⟨ds.map (fun r =>
        if r.id == did then
          { r with status := Status.queued, errorInfo := none,
                   buildLog := d.buildLog ++ [retryMarker] }
        else r), ?_, ?_, ?_, ?_⟩
    · unfold retryFailedDeployment
      rw [hfind]
      simp [herr]
    · unfold statusOf
      rw [findDep_map _ _ _ (fun r => by by_cases h : r.id == did <;> simp [h])]
      rw [hfind]
      simp [hd.2]
    · unfold errorOf
      rw [findDep_map _ _ _ (fun r => by by_cases h : r.id == did <;> simp [h])]
      rw [hfind]
      simp [hd.2]
    · unfold logOf
      rw [findDep_map _ _ _ (fun r => by by_cases h : r.id == did <;> simp [h])]
      rw [hfind]
      simp [hd.2]
  · intro hne
    unfold retryFailedDeployment
    rw [hfind]
    simp [hne]

/-- A concrete error-status deployment used as a witness input. -/
def depErr : DeploymentRec :=
  { id := 1, projectId := 7, commitSha := some "abc", commitMessage := "m",
    branch := "main", status := Status.error, environment := "production",
    buildLog := ["log line"], errorInfo := some ⟨"boom", none⟩,
    buildTime := none, size := none }

/-- C6 witness: a concrete error deployment is re-queued with the marker
appended and its error cleared. -/
theorem c6_retry_correct_witness :
    findDep [depErr] 1 = some depErr
  ∧ ((depErr.status = Status.error →
      ∃ ds2, retryFailedDeployment [depErr] 1 = Except.ok ds2
        ∧ statusOf ds2 1 = some Status.queued
        ∧ errorOf ds2 1 = none
        ∧ logOf ds2 1 = logOf [depErr] 1 ++ [retryMarker])
  ∧ (depErr.status ≠ Status.error →
      retryFailedDeployment [depErr] 1 = Except.error "Can only retry failed deployments")) :=
  ⟨by decide, c6_retry_correct [depErr] 1 depErr (by decide)⟩

/-- An entry of DeploymentService.buildQueue. -/
structure QueueItem where
  deploymentId : Nat
  projectId : Nat
deriving DecidableEq, Repr

/-- The single in-flight buildAndDeploy pipeline (the service processes
its queue one item at a time behind the isProcessing flag). stage counts
the next pipeline step: 0 fetch, 1 install, 2 build, 3 assets, 4 cdn. -/
structure ExecTask where
  deploymentId : Nat
  projectId : Nat
  stage : Nat
deriving DecidableEq, Repr

/-- Whole-system state: the deployments table, the in-process build queue
and the current executor pipeline, if any. -/
structure SysState where
  deployments : List DeploymentRec
  buildQueue : List QueueItem
  active : Option ExecTask
deriving DecidableEq, Repr

/-- The log banner emitBuildLog writes when pipeline step n starts. -/
def stageBanner : Nat → String
  | 0 => "📥 Fetching repository..."
  | 1 => "📦 Installing dependencies..."
  | 2 => "🔨 Running build command..."
  | 3 => "🎨 Processing assets..."
  | _ => "🚀 Deploying to CDN..."

/-- The batch claimed by one scan: the oldest queued rows, limit 5. -/
def scanClaim (ds : List DeploymentRec) : List DeploymentRec :=
  (ds.filter (fun d => d.status == Status.queued)).take 5

/-- DeploymentQueue.processQueuedDeployments: fetch the queued batch and,
for each row in order, write status building and push it onto the
executor build queue (the executor drains that queue asynchronously). -/
def processQueuedDeployments (s : SysState) : SysState :=
  let claimed := scanClaim s.deployments
  { deployments := claimed.foldl (fun acc d => setStatus acc d.id Status.building) s.deployments,
    buildQueue := s.buildQueue ++ claimed.map (fun d => ⟨d.id, d.projectId⟩),
    active := s.active }

/-- One observable action of the system. stageOk carries the elapsed
build time and computed size written on the final success step; stageFail
carries the thrown message. -/
inductive SysAction where
  | scan
  | startBuild
  | stageOk (bt sz : Nat)
  | stageFail (msg : String)
  | cancel (did : Nat)
  | retry (did : Nat)
deriving DecidableEq, Repr

/-- Small-step semantics of the system, one action at a time:
scan runs processQueuedDeployments; startBuild pops the build queue when
the executor is idle and (buildAndDeploy) unconditionally writes status
building; stageOk appends the stage banner and advances the pipeline,
writing the unconditional ready patch after the last step; stageFail
appends the banner and writes the unconditional error patch (step 3,
processAssets, swallows its errors and cannot throw); cancel and retry
run the controller operations, whose thrown rejections the routes catch,
leaving the store unchanged. -/
def stepA (s : SysState) (a : SysAction) : SysState :=
  match a with
  | SysAction.scan => processQueuedDeployments s
  | SysAction.startBuild =>
    match s.active, s.buildQueue with
    | none, q :: rest =>
      { deployments := updateDeploymentStatus s.deployments q.deploymentId Status.building
          "Starting build process",
        buildQueue := rest,
        active := some ⟨q.deploymentId, q.projectId, 0⟩ }
    | _, _ => s
  | SysAction.stageOk bt sz =>
    match s.active with
    | none => s
    | some t =>
      let ds := saveBuildLog s.deployments t.deploymentId (stageBanner t.stage)
      if t.stage ≥ 4 then
        { deployments := setReady ds t.deploymentId bt sz,
          buildQueue := s.buildQueue, active := none }
      else
        { deployments := ds, buildQueue := s.buildQueue,
          active := some ⟨t.deploymentId, t.projectId, t.stage + 1⟩ }
  | SysAction.stageFail msg =>
    match s.active with
    | none => s
    | some t =>
      if t.stage == 3 then s
      else
        { deployments := updateDeploymentStatus
            (saveBuildLog s.deployments t.deploymentId (stageBanner t.stage))
            t.deploymentId Status.error msg,
          buildQueue := s.buildQueue, active := none }
  | SysAction.cancel did =>
    match cancelDeployment s.deployments did with
    | Except.ok ds => { s with deployments := ds }
    | Except.error _ => s
  | SysAction.retry did =>
    match retryFailedDeployment s.deployments did with
    | Except.ok ds => { s with deployments := ds }
    | Except.error _ => s

/-- Run a sequence of actions. -/
def run (s : SysState) (acts : List SysAction) : SysState :=
  acts.foldl stepA s

/-- The transition relation of the state machine of the spec (section 3). -/
def allowedTransition : Status → Status → Bool
  | Status.queued, Status.building => true
  | Status.building, Status.ready => true
  | Status.building, Status.error => true
  | Status.building, Status.cancelled => true
  | Status.queued, Status.cancelled => true
  | Status.error, Status.queued => true
  | _, _ => false

/-- A step either keeps the status of a record or follows an allowed edge. -/
def stepAllowed (a b : Status) : Bool := a == b || allowedTransition a b

/-- A fresh queued deployment record, as the webhook gateway creates it. -/
def mkQueued (did pid : Nat) : DeploymentRec :=
  { id := did, projectId := pid, commitSha := some "abc123",
    commitMessage := "fix", branch := "main", status := Status.queued,
    environment := "production", buildLog := [], errorInfo := none,
    buildTime := none, size := none }

/-- C1 counterexample: a deployment cancelled mid-build is later moved
cancelled → ready by the unconditional executor success write, a
transition outside the allowed list, with no rejection. -/
theorem c1_counterexample :
    let s0 : SysState := ⟨[mkQueued 1 7], [], none⟩
    let sPre := run s0 [SysAction.scan, SysAction.startBuild, SysAction.cancel 1,
      SysAction.stageOk 3 500, SysAction.stageOk 3 500, SysAction.stageOk 3 500,
      SysAction.stageOk 3 500]
    statusOf sPre.deployments 1 = some Status.cancelled
  ∧ statusOf (stepA sPre (SysAction.stageOk 3 500)).deployments 1 = some Status.ready
  ∧ allowedTransition Status.cancelled Status.ready = false := by
  decide

/-- C2 counterexample: cancel during building does set status cancelled,
but the executor carries no cancellation flag, keeps running every
remaining stage, and its success write makes the status ready after all. -/
theorem c2_counterexample :
    let s0 : SysState := ⟨[mkQueued 2 7], [], none⟩
    let mid := run s0 [SysAction.scan, SysAction.startBuild, SysAction.cancel 2]
    statusOf mid.deployments 2 = some Status.cancelled
  ∧ statusOf (run mid [SysAction.stageOk 1 9, SysAction.stageOk 1 9, SysAction.stageOk 1 9,
      SysAction.stageOk 1 9, SysAction.stageOk 1 9]).deployments 2 = some Status.ready := by
  decide

/-- C3 counterexample: one scan marks a whole batch building before any
build runs, so two deployments of the same project are simultaneously in
status building. -/
theorem c3_counterexample :
    let s0 : SysState := ⟨[mkQueued 1 7, mkQueued 2 7], [], none⟩
    let s1 := run s0 [SysAction.scan]
    (mkQueued 1 7).projectId = (mkQueued 2 7).projectId
  ∧ statusOf s1.deployments 1 = some Status.building
  ∧ statusOf s1.deployments 2 = some Status.building := by
  decide

/-- A terminal error deployment with one persisted log line. -/
def depErrLogged : DeploymentRec :=
  { mkQueued 1 7 with
    status := Status.error
    buildLog := ["a"]
    errorInfo := some ⟨"boom", none⟩ }

/-- C4 counterexample: a deployment that reached the terminal status
error has its persisted build log mutated afterwards - retry appends the
retry marker to it. -/
theorem c4_counterexample :
    let sErr : SysState := ⟨[depErrLogged], [], none⟩
    statusOf sErr.deployments 1 = some Status.error
  ∧ logOf sErr.deployments 1 = ["a"]
  ∧ logOf ((run sErr [SysAction.retry 1]).deployments) 1 = ["a", retryMarker] := by
  decide

/-- C5 counterexample: a pipeline failure leaves status error with an
error column holding only the message - the step field is absent. -/
theorem c5_counterexample :
    let s0 : SysState := ⟨[mkQueued 1 7], [], none⟩
    let s1 := run s0 [SysAction.scan, SysAction.startBuild,
      SysAction.stageFail "Failed to clone repository: fatal"]
    statusOf s1.deployments 1 = some Status.error
  ∧ errorOf s1.deployments 1 =
      some { message := "Failed to clone repository: fatal", step := none } := by
  decide

/-- Actions performed by the build executor. -/
def execOnly : SysAction → Bool
  | SysAction.startBuild => true
  | SysAction.stageOk _ _ => true
  | SysAction.stageFail _ => true
  | _ => false

/-- C2 amended: cancelling a building deployment immediately writes
status cancelled, but the executor observes no cancellation flag: its
control flow (which pipeline is active, what remains queued) never reads
the deployment records, so it proceeds identically after a cancel and on
success overwrites the status to ready. -/
theorem c2_amended :
    (∀ (s : SysState) (did : Nat),
      statusOf s.deployments did = some Status.building →
      statusOf ((stepA s (SysAction.cancel did)).deployments) did = some Status.cancelled)
  ∧ (∀ (ds1 ds2 : List DeploymentRec) (bq : List QueueItem) (act : Option ExecTask)
      (a : SysAction), execOnly a = true →
      (stepA ⟨ds1, bq, act⟩ a).active = (stepA ⟨ds2, bq, act⟩ a).active
    ∧ (stepA ⟨ds1, bq, act⟩ a).buildQueue = (stepA ⟨ds2, bq, act⟩ a).buildQueue) := by
  constructor
  · intro s did h
    unfold statusOf at h
    cases hf : findDep s.deployments did with
    | none => rw [hf] at h; simp at h
    | some d =>
      rw [hf] at h
      simp at h
      have hb : d.status = Status.building := h
      have hd := findDep_eq_some hf
      have hcd : cancelDeployment s.deployments did
          = Except.ok (setStatus s.deployments did Status.cancelled) := by
        unfold cancelDeployment
        rw [hf]
        simp [hb]
      show statusOf ((stepA s (SysAction.cancel did)).deployments) did = some Status.cancelled
      simp only [stepA, hcd]
      unfold statusOf setStatus
      rw [findDep_map _ _ _ (fun r => by by_cases hr : r.id == did <;> simp [hr])]
      rw [hf]
      simp [hd.2]
  · intro ds1 ds2 bq act a ha
    cases a with
    | scan => simp [execOnly] at ha
    | cancel did => simp [execOnly] at ha
    | retry did => simp [execOnly] at ha
    | startBuild => cases act <;> cases bq <;> simp [stepA]
    | stageOk bt sz =>
      cases act with
      | none => simp [stepA]
      | some t =>
        by_cases h4 : t.stage ≥ 4 <;> simp [stepA, h4]
    | stageFail msg =>
      cases act with
      | none => simp [stepA]
      | some t =>
        by_cases h3 : t.stage == 3 <;> simp [stepA, h3]

/-- True when the executor currently has a pipeline in flight for the
given deployment id. -/
def pipelineRunning (s : SysState) (did : Nat) : Bool :=
  match s.active with
  | some t => t.deploymentId == did
  | none => false

/-- C3 amended: two same-project deployments can be in status building
simultaneously (the scan marks its whole batch), but the executor runs at
most one pipeline at a time - any two in-flight pipelines are the same
deployment, and no new pipeline starts while one is in flight - so the
shared per-project working directory has at most one writer. -/
theorem c3_amended :
    (∀ (s : SysState) (d1 d2 : Nat),
      pipelineRunning s d1 = true → pipelineRunning s d2 = true → d1 = d2)
  ∧ (∀ (s : SysState), s.active.isSome = true → stepA s SysAction.startBuild = s) := by
  constructor
  · intro s d1 d2 h1 h2
    unfold pipelineRunning at h1 h2
    cases hact : s.active with
    | none => rw [hact] at h1; simp at h1
    | some t =>
      rw [hact] at h1 h2
      have e1 : t.deploymentId = d1 := by simpa using h1
      have e2 : t.deploymentId = d2 := by simpa using h2
      rw [← e1, ← e2]
  · intro s h
    cases hact : s.active with
    | none => rw [hact] at h; simp at h
    | some t =>
      cases s with
      | mk ds bq act =>
        simp only at hact
        subst hact
        cases bq <;> simp [stepA]

/-- C5 amended: the executor failure write sets status error with an
error column carrying the thrown message only - the step field is never
populated. -/
theorem c5_amended (ds : List DeploymentRec) (did : Nat) (msg : String)
    (hex : (findDep ds did).isSome = true) :
    statusOf (updateDeploymentStatus ds did Status.error msg) did = some Status.error
  ∧ errorOf (updateDeploymentStatus ds did Status.error msg) did = some ⟨msg, none⟩ := by
  cases hf : findDep ds did with
  | none => rw [hf] at hex; simp at hex
  | some d =>
    have hd := findDep_eq_some hf
    have hmap : findDep (updateDeploymentStatus ds did Status.error msg) did
        = (findDep ds did).map (fun r =>
            if r.id == did then
              { r with status := Status.error, errorInfo := some ⟨msg, none⟩ }
            else r) := by
      unfold updateDeploymentStatus
      rw [findDep_map _ _ _ (fun r => by by_cases hr : r.id == did <;> simp [hr])]
      congr 1
    constructor
    · unfold statusOf
      rw [hmap, hf]
      simp [hd.2]
    · unfold errorOf
      rw [hmap, hf]
      simp [hd.2]

/-- A building-status deployment used as a witness input. -/
def depBuildingW : DeploymentRec := { mkQueued 1 7 with status := Status.building }

/-- The witness system state holding that building deployment. -/
def sBuildingW : SysState := ⟨[depBuildingW], [], none⟩

/-- C2 amended witness: cancel flips a concrete building deployment to
cancelled, and a concrete executor step ignores the record store. -/
theorem c2_amended_witness :
    statusOf sBuildingW.deployments 1 = some Status.building
  ∧ statusOf ((stepA sBuildingW (SysAction.cancel 1)).deployments) 1 = some Status.cancelled
  ∧ execOnly (SysAction.stageOk 2 5) = true
  ∧ (stepA ⟨[], [], none⟩ (SysAction.stageOk 2 5)).active
      = (stepA ⟨[depErr], [], none⟩ (SysAction.stageOk 2 5)).active :=
  ⟨by decide, c2_amended.1 sBuildingW 1 (by decide), by decide,
    (c2_amended.2 [] [depErr] [] none (SysAction.stageOk 2 5) (by decide)).1⟩

/-- A system state with one in-flight pipeline, for the C3 witness. -/
def sActiveW : SysState := ⟨[], [], some ⟨5, 7, 2⟩⟩

/-- C3 amended witness: in a concrete state with an in-flight pipeline,
any two running deployment ids coincide and startBuild is a no-op. -/
theorem c3_amended_witness :
    pipelineRunning sActiveW 5 = true
  ∧ (5 : Nat) = 5
  ∧ sActiveW.active.isSome = true
  ∧ stepA sActiveW SysAction.startBuild = sActiveW :=
  ⟨by decide, c3_amended.1 sActiveW 5 5 (by decide) (by decide), by decide,
    c3_amended.2 sActiveW (by decide)⟩

/-- C5 amended witness: a concrete failure write records message "boom"
and no step. -/
theorem c5_amended_witness :
    (findDep [mkQueued 1 7] 1).isSome = true
  ∧ (statusOf (updateDeploymentStatus [mkQueued 1 7] 1 Status.error "boom") 1
        = some Status.error
     ∧ errorOf (updateDeploymentStatus [mkQueued 1 7] 1 Status.error "boom") 1
        = some ⟨"boom", none⟩) :=
  ⟨by decide, c5_amended [mkQueued 1 7] 1 "boom" (by decide)⟩

/-- Actions of the retry/cancel controller or the scheduler scan. -/
def controllerOrScan : SysAction → Bool
  | SysAction.scan => true
  | SysAction.cancel _ => true
  | SysAction.retry _ => true
  | _ => false

/-- Forall₂ against a pointwise image. -/
theorem forall2_map_self {α : Type} (R : α → α → Prop) (f : α → α) :
    ∀ (l : List α), (∀ x ∈ l, R x (f x)) → List.Forall₂ R l (l.map f)
  | [], _ => List.Forall₂.nil
  | x :: xs, h =>
    List.Forall₂.cons (h x (by simp))
      (forall2_map_self R f xs (fun y hy => h y (by simp [hy])))

/-- Forall₂ of a list against itself from a pointwise reflexivity. -/
theorem forall2_self {α : Type} (R : α → α → Prop) :
    ∀ (l : List α), (∀ x ∈ l, R x x) → List.Forall₂ R l l
  | [], _ => List.Forall₂.nil
  | x :: xs, h =>
    List.Forall₂.cons (h x (by simp))
      (forall2_self R xs (fun y hy => h y (by simp [hy])))

/-- A scan-claimed row is a queued row of the store. -/
theorem scanClaim_spec {ds : List DeploymentRec} {c : DeploymentRec}
    (hc : c ∈ scanClaim ds) : c ∈ ds ∧ c.status = Status.queued := by
  unfold scanClaim at hc
  have h1 : c ∈ ds.filter (fun d => d.status == Status.queued) :=
    List.mem_of_mem_take hc
  have h2 := List.mem_filter.mp h1
  exact ⟨h2.1, eq_of_beq (by simpa using h2.2)⟩

/-- The per-row update loop of the scan as a single pointwise map. -/
theorem foldl_setStatus_eq : ∀ (cs ds : List DeploymentRec),
    cs.foldl (fun acc d => setStatus acc d.id Status.building) ds
      = ds.map (fun r =>
          if cs.any (fun c => r.id == c.id) then { r with status := Status.building } else r) := by
  intro cs
  induction cs with
  | nil =>
    intro ds
    simp
  | cons c cs ih =>
    intro ds
    simp only [List.foldl_cons]
    rw [ih]
    unfold setStatus
    rw [List.map_map]
    apply List.map_congr_left
    intro r _
    simp only [Function.comp_apply]
    by_cases hc : r.id == c.id
    · simp [hc, List.any_cons]
    · simp [hc, List.any_cons]

/-- C1 amended: the retry/cancel controller and the scheduler scan only
perform allowed transitions - scan moves queued rows to building, cancel
requires queued or building before writing cancelled, retry requires
error before writing queued, and rejected calls leave every record
unchanged. (The executor status writes are unconditional and are
not covered: they can move a cancelled record to ready, as the
counterexample shows.) -/
theorem c1_amended (s : SysState) (a : SysAction) (hn : idsNodup s.deployments)
    (ha : controllerOrScan a = true) :
    List.Forall₂ (fun d d2 => d.id = d2.id ∧ stepAllowed d.status d2.status = true)
      s.deployments ((stepA s a).deployments) := by
  cases a with
  | startBuild => simp [controllerOrScan] at ha
  | stageOk bt sz => simp [controllerOrScan] at ha
  | stageFail msg => simp [controllerOrScan] at ha
  | scan =>
    simp only [stepA]
    unfold processQueuedDeployments
    simp only
    rw [foldl_setStatus_eq]
    apply forall2_map_self
    intro r hr
    by_cases hc : (scanClaim s.deployments).any (fun c => r.id == c.id)
    · simp only [hc, if_true]
      refine ⟨by trivial, ?_⟩
      obtain ⟨cc, hcmem, hcid⟩ := List.any_eq_true.mp hc
      have hspec := scanClaim_spec hcmem
      have hrc : r = cc := eq_of_idsNodup hn hr hspec.1 (by simpa using hcid)
      have hrq : r.status = Status.queued := by rw [hrc]; exact hspec.2
      simp [stepAllowed, allowedTransition, hrq]
    · simp only [hc, if_false]
      exact ⟨rfl, by simp [stepAllowed]⟩
  | cancel did =>
    cases hcd : cancelDeployment s.deployments did with
    | error e =>
      simp only [stepA, hcd]
      exact forall2_self
        (fun d d2 => d.id = d2.id ∧ stepAllowed d.status d2.status = true)
        s.deployments (fun x _ => ⟨rfl, by simp [stepAllowed]⟩)
    | ok ds2 =>
      have hchar : ∃ d, findDep s.deployments did = some d
          ∧ (d.status = Status.queued ∨ d.status = Status.building)
          ∧ ds2 = setStatus s.deployments did Status.cancelled := by
        cases hf : findDep s.deployments did with
        | none =>
          have hred : cancelDeployment s.deployments did
              = Except.error "Deployment not found" := by
            unfold cancelDeployment
            rw [hf]
          rw [hred] at hcd
          simp at hcd
        | some d =>
          have hred : cancelDeployment s.deployments did
              = (if d.status = Status.queued ∨ d.status = Status.building then
                  Except.ok (setStatus s.deployments did Status.cancelled)
                else Except.error "Cannot cancel deployment in current state") := by
            unfold cancelDeployment
            rw [hf]
          rw [hred] at hcd
          by_cases hst : d.status = Status.queued ∨ d.status = Status.building
          · rw [if_pos hst] at hcd
            simp only [Except.ok.injEq] at hcd
            exact ⟨d, rfl, hst, hcd.symm⟩
          · rw [if_neg hst] at hcd; simp at hcd
      obtain ⟨d, hf, hst, hds2⟩ := hchar
      simp only [stepA, hcd, hds2]
      unfold setStatus
      apply forall2_map_self
      intro r hr
      by_cases hrid : r.id == did
      · simp only [hrid, if_true]
        refine ⟨by trivial, ?_⟩
        have hdd := findDep_eq_some hf
        have hrd : r = d := by
          apply eq_of_idsNodup hn hr hdd.1
          rw [hdd.2]
          simpa using hrid
        rcases hst with h | h
        · have hq : r.status = Status.queued := by rw [hrd]; exact h
          simp [stepAllowed, allowedTransition, hq]
        · have hb : r.status = Status.building := by rw [hrd]; exact h
          simp [stepAllowed, allowedTransition, hb]
      · simp only [hrid, if_false]
        exact ⟨rfl, by simp [stepAllowed]⟩
  | retry did =>
    cases hcd : retryFailedDeployment s.deployments did with
    | error e =>
      simp only [stepA, hcd]
      exact forall2_self
        (fun d d2 => d.id = d2.id ∧ stepAllowed d.status d2.status = true)
        s.deployments (fun x _ => ⟨rfl, by simp [stepAllowed]⟩)
    | ok ds2 =>
      have hchar : ∃ d, findDep s.deployments did = some d
          ∧ d.status = Status.error
          ∧ ds2 = s.deployments.map (fun r =>
              if r.id == did then
                { r with status := Status.queued, errorInfo := none,
                         buildLog := d.buildLog ++ [retryMarker] }
              else r) := by
        cases hf : findDep s.deployments did with
        | none =>
          have hred : retryFailedDeployment s.deployments did
              = Except.error "Deployment not found" := by
            unfold retryFailedDeployment
            rw [hf]
          rw [hred] at hcd
          simp at hcd
        | some d =>
          have hred : retryFailedDeployment s.deployments did
              = (if d.status = Status.error then
                  Except.ok (s.deployments.map (fun r =>
                    if r.id == did then
                      { r with status := Status.queued, errorInfo := none,
                               buildLog := d.buildLog ++ [retryMarker] }
                    else r))
                else Except.error "Can only retry failed deployments") := by
            unfold retryFailedDeployment
            rw [hf]
          rw [hred] at hcd
          by_cases hst : d.status = Status.error
          · rw [if_pos hst] at hcd
            simp only [Except.ok.injEq] at hcd
            exact ⟨d, rfl, hst, hcd.symm⟩
          · rw [if_neg hst] at hcd; simp at hcd
      obtain ⟨d, hf, hst, hds2⟩ := hchar
      simp only [stepA, hcd, hds2]
      apply forall2_map_self
      intro r hr
      by_cases hrid : r.id == did
      · simp only [hrid, if_true]
        refine ⟨by trivial, ?_⟩
        have hdd := findDep_eq_some hf
        have hrd : r = d := by
          apply eq_of_idsNodup hn hr hdd.1
          rw [hdd.2]
          simpa using hrid
        have he : r.status = Status.error := by rw [hrd]; exact hst
        simp [stepAllowed, allowedTransition, he]
      · simp only [hrid, if_false]
        exact ⟨rfl, by simp [stepAllowed]⟩

/-- C1 amended witness: a concrete cancel of a queued deployment steps
every record along an allowed edge. -/
theorem c1_amended_witness :
    idsNodup [mkQueued 1 7]
  ∧ controllerOrScan (SysAction.cancel 1) = true
  ∧ List.Forall₂ (fun d d2 => d.id = d2.id ∧ stepAllowed d.status d2.status = true)
      [mkQueued 1 7] ((stepA ⟨[mkQueued 1 7], [], none⟩ (SysAction.cancel 1)).deployments) :=
  ⟨by decide, by decide, c1_amended ⟨[mkQueued 1 7], [], none⟩ (SysAction.cancel 1)
    (by decide) (by decide)⟩

/-- Characterization of a successful cancel: the row existed with status
queued or building and the result is the cancelled-status write. -/
theorem cancelDeployment_ok {ds : List DeploymentRec} {did : Nat}
    {ds2 : List DeploymentRec} (hcd : cancelDeployment ds did = Except.ok ds2) :
    ∃ d, findDep ds did = some d
      ∧ (d.status = Status.queued ∨ d.status = Status.building)
      ∧ ds2 = setStatus ds did Status.cancelled := by
  cases hf : findDep ds did with
  | none =>
    have hred : cancelDeployment ds did = Except.error "Deployment not found" := by
      unfold cancelDeployment
      rw [hf]
    rw [hred] at hcd
    simp at hcd
  | some d =>
    have hred : cancelDeployment ds did
        = (if d.status = Status.queued ∨ d.status = Status.building then
            Except.ok (setStatus ds did Status.cancelled)
          else Except.error "Cannot cancel deployment in current state") := by
      unfold cancelDeployment
      rw [hf]
    rw [hred] at hcd
    by_cases hst : d.status = Status.queued ∨ d.status = Status.building
    · rw [if_pos hst] at hcd
      simp only [Except.ok.injEq] at hcd
      exact ⟨d, rfl, hst, hcd.symm⟩
    · rw [if_neg hst] at hcd; simp at hcd

/-- Characterization of a successful retry: the row existed with status
error and the result re-queues it, appending the retry marker. -/
theorem retryFailedDeployment_ok {ds : List DeploymentRec} {did : Nat}
    {ds2 : List DeploymentRec} (hcd : retryFailedDeployment ds did = Except.ok ds2) :
    ∃ d, findDep ds did = some d
      ∧ d.status = Status.error
      ∧ ds2 = ds.map (fun r =>
          if r.id == did then
            { r with status := Status.queued, errorInfo := none,
                     buildLog := d.buildLog ++ [retryMarker] }
          else r) := by
  cases hf : findDep ds did with
  | none =>
    have hred : retryFailedDeployment ds did = Except.error "Deployment not found" := by
      unfold retryFailedDeployment
      rw [hf]
    rw [hred] at hcd
    simp at hcd
  | some d =>
    have hred : retryFailedDeployment ds did
        = (if d.status = Status.error then
            Except.ok (ds.map (fun r =>
              if r.id == did then
                { r with status := Status.queued, errorInfo := none,
                         buildLog := d.buildLog ++ [retryMarker] }
              else r))
          else Except.error "Can only retry failed deployments") := by
      unfold retryFailedDeployment
      rw [hf]
    rw [hred] at hcd
    by_cases hst : d.status = Status.error
    · rw [if_pos hst] at hcd
      simp only [Except.ok.injEq] at hcd
      exact ⟨d, rfl, hst, hcd.symm⟩
    · rw [if_neg hst] at hcd; simp at hcd

/-- An id-preserving rewrite of the rows keeps the id column. -/
theorem ids_map_preserve (ds : List DeploymentRec)
    (f : DeploymentRec → DeploymentRec) (hid : ∀ d, (f d).id = d.id) :
    (ds.map f).map (fun d => d.id) = ds.map (fun d => d.id) := by
  rw [List.map_map]
  apply List.map_congr_left
  intro d _
  simp [hid d]

/-- Every system action leaves the id column of the store unchanged. -/
theorem stepA_ids (s : SysState) (a : SysAction) :
    ((stepA s a).deployments).map (fun d => d.id)
      = s.deployments.map (fun d => d.id) := by
  cases a with
  | scan =>
    simp only [stepA]
    unfold processQueuedDeployments
    simp only
    rw [foldl_setStatus_eq]
    apply ids_map_preserve
    intro d
    by_cases h : (scanClaim s.deployments).any (fun c => d.id == c.id) <;> simp [h]
  | startBuild =>
    obtain ⟨ds, bq, act⟩ := s
    cases act with
    | some t => cases bq <;> rfl
    | none =>
      cases bq with
      | nil => rfl
      | cons q rest =>
        simp only [stepA]
        unfold updateDeploymentStatus
        apply ids_map_preserve
        intro d
        by_cases h : d.id == q.deploymentId <;> simp [h]
  | stageOk bt sz =>
    cases hact : s.active with
    | none => simp [stepA, hact]
    | some t =>
      by_cases h4 : t.stage ≥ 4
      · simp only [stepA, hact, h4, if_pos]
        unfold setReady saveBuildLog
        rw [ids_map_preserve _ _ (fun d => by by_cases h : d.id == t.deploymentId <;> simp [h])]
        rw [ids_map_preserve _ _ (fun d => by by_cases h : d.id == t.deploymentId <;> simp [h])]
      · simp only [stepA, hact, h4, if_neg, if_false]
        unfold saveBuildLog
        rw [ids_map_preserve _ _ (fun d => by by_cases h : d.id == t.deploymentId <;> simp [h])]
  | stageFail msg =>
    cases hact : s.active with
    | none => simp [stepA, hact]
    | some t =>
      by_cases h3 : t.stage == 3
      · simp [stepA, hact, h3]
      · simp only [stepA, hact, h3, if_neg, if_false, Bool.false_eq_true]
        unfold updateDeploymentStatus saveBuildLog
        rw [ids_map_preserve _ _ (fun d => by
          by_cases h : d.id == t.deploymentId <;> simp [h])]
        rw [ids_map_preserve _ _ (fun d => by by_cases h : d.id == t.deploymentId <;> simp [h])]
  | cancel did =>
    cases hcd : cancelDeployment s.deployments did with
    | error e => simp [stepA, hcd]
    | ok ds2 =>
      obtain ⟨d, hf, hst, hds2⟩ := cancelDeployment_ok hcd
      simp only [stepA, hcd, hds2]
      unfold setStatus
      apply ids_map_preserve
      intro r
      by_cases h : r.id == did <;> simp [h]
  | retry did =>
    cases hcd : retryFailedDeployment s.deployments did with
    | error e => simp [stepA, hcd]
    | ok ds2 =>
      obtain ⟨d, hf, hst, hds2⟩ := retryFailedDeployment_ok hcd
      simp only [stepA, hcd, hds2]
      apply ids_map_preserve
      intro r
      by_cases h : r.id == did <;> simp [h]

/-- A pointwise log-appending rewrite only appends to the observed log. -/
theorem logOf_map_suffix (ds : List DeploymentRec) (did : Nat)
    (f : DeploymentRec → DeploymentRec) (hid : ∀ d, (f d).id = d.id)
    (h : ∀ d ∈ ds, ∃ rest, (f d).buildLog = d.buildLog ++ rest) :
    ∃ rest, logOf (ds.map f) did = logOf ds did ++ rest := by
  unfold logOf
  rw [findDep_map ds did f hid]
  cases hf : findDep ds did with
  | none => exact ⟨[], by simp⟩
  | some d =>
    have hmem := (findDep_eq_some hf).1
    obtain ⟨rest, hrest⟩ := h d hmem
    exact ⟨rest, by simp [hrest]⟩

/-- Every single system action only ever appends to a build log: scan,
startBuild, cancel and the status writes leave logs alone, stage steps
append the stage banner, retry appends the retry marker. -/
theorem stepA_log_suffix (s : SysState) (a : SysAction) (hn : idsNodup s.deployments)
    (did : Nat) :
    ∃ rest, logOf ((stepA s a).deployments) did = logOf s.deployments did ++ rest := by
  cases a with
  | scan =>
    simp only [stepA]
    unfold processQueuedDeployments
    simp only
    rw [foldl_setStatus_eq]
    apply logOf_map_suffix
    · intro d
      by_cases h : (scanClaim s.deployments).any (fun c => d.id == c.id) <;> simp [h]
    · intro d _
      by_cases h : (scanClaim s.deployments).any (fun c => d.id == c.id) <;>
        exact ⟨[], by simp [h]⟩
  | startBuild =>
    obtain ⟨ds, bq, act⟩ := s
    cases act with
    | some t => cases bq <;> exact ⟨[], by simp [stepA]⟩
    | none =>
      cases bq with
      | nil => exact ⟨[], by simp [stepA]⟩
      | cons q rest =>
        simp only [stepA]
        unfold updateDeploymentStatus
        apply logOf_map_suffix
        · intro d
          by_cases h : d.id == q.deploymentId <;> simp [h]
        · intro d _
          by_cases h : d.id == q.deploymentId <;> exact ⟨[], by simp [h]⟩
  | stageOk bt sz =>
    cases hact : s.active with
    | none => exact ⟨[], by simp [stepA, hact]⟩
    | some t =>
      by_cases h4 : t.stage ≥ 4
      · simp only [stepA, hact, h4, if_pos]
        have h1 : ∃ rest, logOf (saveBuildLog s.deployments t.deploymentId
            (stageBanner t.stage)) did = logOf s.deployments did ++ rest := by
          unfold saveBuildLog
          apply logOf_map_suffix
          · intro d
            by_cases h : d.id == t.deploymentId <;> simp [h]
          · intro d _
            by_cases h : d.id == t.deploymentId
            · exact ⟨[stageBanner t.stage], by simp [h]⟩
            · exact ⟨[], by simp [h]⟩
        have h2 : ∃ rest, logOf (setReady (saveBuildLog s.deployments t.deploymentId
            (stageBanner t.stage)) t.deploymentId bt sz) did
            = logOf (saveBuildLog s.deployments t.deploymentId (stageBanner t.stage)) did
              ++ rest := by
          unfold setReady
          apply logOf_map_suffix
          · intro d
            by_cases h : d.id == t.deploymentId <;> simp [h]
          · intro d _
            by_cases h : d.id == t.deploymentId <;> exact ⟨[], by simp [h]⟩
        obtain ⟨r1, hr1⟩ := h1
        obtain ⟨r2, hr2⟩ := h2
        exact ⟨r1 ++ r2, by rw [hr2, hr1, List.append_assoc]⟩
      · simp only [stepA, hact, h4, if_neg, if_false]
        unfold saveBuildLog
        apply logOf_map_suffix
        · intro d
          by_cases h : d.id == t.deploymentId <;> simp [h]
        · intro d _
          by_cases h : d.id == t.deploymentId
          · exact ⟨[stageBanner t.stage], by simp [h]⟩
          · exact ⟨[], by simp [h]⟩
  | stageFail msg =>
    cases hact : s.active with
    | none => exact ⟨[], by simp [stepA, hact]⟩
    | some t =>
      by_cases h3 : t.stage == 3
      · exact ⟨[], by simp [stepA, hact, h3]⟩
      · simp only [stepA, hact, h3, if_neg, if_false, Bool.false_eq_true]
        have h1 : ∃ rest, logOf (saveBuildLog s.deployments t.deploymentId
            (stageBanner t.stage)) did = logOf s.deployments did ++ rest := by
          unfold saveBuildLog
          apply logOf_map_suffix
          · intro d
            by_cases h : d.id == t.deploymentId <;> simp [h]
          · intro d _
            by_cases h : d.id == t.deploymentId
            · exact ⟨[stageBanner t.stage], by simp [h]⟩
            · exact ⟨[], by simp [h]⟩
        have h2 : ∃ rest, logOf (updateDeploymentStatus (saveBuildLog s.deployments
            t.deploymentId (stageBanner t.stage)) t.deploymentId Status.error msg) did
            = logOf (saveBuildLog s.deployments t.deploymentId (stageBanner t.stage)) did
              ++ rest := by
          unfold updateDeploymentStatus
          apply logOf_map_suffix
          · intro d
            by_cases h : d.id == t.deploymentId <;> simp [h]
          · intro d _
            by_cases h : d.id == t.deploymentId <;> exact ⟨[], by simp [h]⟩
        obtain ⟨r1, hr1⟩ := h1
        obtain ⟨r2, hr2⟩ := h2
        exact ⟨r1 ++ r2, by rw [hr2, hr1, List.append_assoc]⟩
  | cancel did2 =>
    cases hcd : cancelDeployment s.deployments did2 with
    | error e => exact ⟨[], by simp [stepA, hcd]⟩
    | ok ds2 =>
      obtain ⟨d, hf, hst, hds2⟩ := cancelDeployment_ok hcd
      simp only [stepA, hcd, hds2]
      unfold setStatus
      apply logOf_map_suffix
      · intro r
        by_cases h : r.id == did2 <;> simp [h]
      · intro r _
        by_cases h : r.id == did2 <;> exact ⟨[], by simp [h]⟩
  | retry did2 =>
    cases hcd : retryFailedDeployment s.deployments did2 with
    | error e => exact ⟨[], by simp [stepA, hcd]⟩
    | ok ds2 =>
      obtain ⟨d, hf, hst, hds2⟩ := retryFailedDeployment_ok hcd
      simp only [stepA, hcd, hds2]
      apply logOf_map_suffix
      · intro r
        by_cases h : r.id == did2 <;> simp [h]
      · intro r hr
        by_cases h : r.id == did2
        · have hdd := findDep_eq_some hf
          have hrd : r = d := by
            apply eq_of_idsNodup hn hr hdd.1
            rw [hdd.2]
            simpa using h
          refine ⟨[retryMarker], ?_⟩
          simp only [h, if_true]
          rw [← hrd]
        · exact ⟨[], by simp [h]⟩

/-- C4 amended: the build log is append-only across every operation of
the system - whatever log is observed at any point stays an initial segment of the log
observed after any further actions. (The once-terminal-immutable
part fails: retry appends its marker to a terminal error record, as the
counterexample shows; prior entries are still never rewritten.) -/
theorem c4_amended (s : SysState) (acts : List SysAction) (did : Nat)
    (hn : idsNodup s.deployments) :
    ∃ rest, logOf ((run s acts).deployments) did = logOf s.deployments did ++ rest := by
  induction acts generalizing s with
  | nil => exact ⟨[], by simp [run]⟩
  | cons a acts ih =>
    have hn2 : idsNodup ((stepA s a).deployments) := by
      unfold idsNodup
      rw [stepA_ids]
      exact hn
    obtain ⟨r1, hr1⟩ := stepA_log_suffix s a hn did
    obtain ⟨r2, hr2⟩ := ih (stepA s a) hn2
    refine ⟨r1 ++ r2, ?_⟩
    have hrun : run s (a :: acts) = run (stepA s a) acts := by
      simp [run]
    rw [hrun, hr2, hr1, List.append_assoc]

/-- C4 amended witness: a concrete two-action run only appends. -/
theorem c4_amended_witness :
    idsNodup [mkQueued 1 7]
  ∧ ∃ rest, logOf ((run ⟨[mkQueued 1 7], [], none⟩
      [SysAction.scan, SysAction.startBuild]).deployments) 1
      = logOf [mkQueued 1 7] 1 ++ rest :=
  ⟨by decide, c4_amended ⟨[mkQueued 1 7], [], none⟩
    [SysAction.scan, SysAction.startBuild] 1 (by decide)⟩

/-- The durable store as the webhook path sees it, together with the
injectable failure modes of its operations: projectQueryError makes the
project query fail, createFailures lists project ids whose deployment
insert fails. -/
structure StoreState where
  projects : List Project
  deployments : List DeploymentRec
  nextId : Nat
  projectQueryError : Bool
  createFailures : List Nat
deriving DecidableEq, Repr

/-- The webhook project query: repository url must match exactly and, for
production deployments only, the branch must match exactly as well. -/
def matchesProject (url branch environment : String) (p : Project) : Bool :=
  match p.repository with
  | some r => r.url == url && (if environment == "production" then r.branch == branch else true)
  | none => false

/-- The deployment row createDeployment inserts for a project: queued,
carrying the commit info with the JavaScript-falsy defaults of the code. -/
def mkDeploymentRow (store : StoreState) (project : Project) (projectId : Nat)
    (ci : Option CommitInfo) (environment : String) : DeploymentRec :=
  { id := store.nextId
    projectId := projectId
    commitSha := ci.bind (fun c => c.commitSha)
    commitMessage := jsOrStr (ci.bind (fun c => c.commitMessage)) "Manual deployment"
    branch := jsOrStr (ci.bind (fun c => c.branch))
      (jsOrStr (project.repository.map (fun r => r.branch)) "main")
    status := Status.queued
    environment := environment
    buildLog := []
    errorInfo := none
    buildTime := none
    size := none }

/-- DeploymentQueue.queueDeployment: look the project up by id, then
insert one queued deployment row; either step can fail, and the failure
propagates to the caller as a thrown error. -/
def queueDeployment (store : StoreState) (projectId : Nat) (ci : Option CommitInfo)
    (environment : String) : Except String (StoreState × DeploymentRec) :=
  match store.projects.find? (fun p => p.id == projectId) with
  | none => Except.error "Project not found"
  | some project =>
    if store.createFailures.contains projectId then
      Except.error "Failed to create deployment"
    else
      Except.ok
        ({ store with
            deployments := store.deployments ++ [mkDeploymentRow store project projectId ci environment]
            nextId := store.nextId + 1 },
          mkDeploymentRow store project projectId ci environment)

/-- The per-project loop of handleWebhookDeployment: try to queue one
deployment per matching project, collecting successes and swallowing
per-project failures. -/
def webhookFold (ci : Option CommitInfo) (environment : String)
    (ps : List Project) (init : StoreState × List DeploymentRec) :
    StoreState × List DeploymentRec :=
  ps.foldl (fun acc p =>
    match queueDeployment acc.1 p.id ci environment with
    | Except.ok (st2, d) => (st2, acc.2 ++ [d])
    | Except.error _ => acc) init

/-- DeploymentQueue.handleWebhookDeployment: a failing project query
yields the empty list, otherwise one queued deployment is attempted per
matching project; the function never throws. -/
def handleWebhookDeployment (store : StoreState) (repositoryUrl branch : String)
    (ci : Option CommitInfo) (environment : String) :
    StoreState × List DeploymentRec :=
  if store.projectQueryError then (store, [])
  else
    webhookFold ci environment
      (store.projects.filter (matchesProject repositoryUrl branch environment))
      (store, [])

/-- The JSON body of the generic webhook endpoint. -/
structure GenericBody where
  repository_url : Option String
  branch : Option String
  commit_sha : Option String
  commit_message : Option String
deriving DecidableEq, Repr

/-- The generic webhook route: 400 when repository_url is falsy, else run
handleWebhookDeployment and answer 200 with deployments_triggered set to
the number of created deployments. Result: (store, http status, count). -/
def genericWebhookRoute (store : StoreState) (body : GenericBody) :
    StoreState × Nat × Nat :=
  match body.repository_url with
  | none => (store, 400, 0)
  | some url =>
    if url == "" then (store, 400, 0)
    else
      let ci : CommitInfo :=
        { commitSha := body.commit_sha
          commitMessage := some (jsOrStr body.commit_message "Manual webhook trigger")
          branch := some (jsOrStr body.branch "main") }
      let res := handleWebhookDeployment store url (jsOrStr body.branch "main")
        (some ci) "production"
      (res.1, 200, res.2.length)

/-- The webhook loop creates exactly one queued row per listed project
whose insert does not fail, leaves the project table and the failure set
alone, and every collected row is queued with the commit sha of the event. -/
theorem webhookFold_spec (ci : Option CommitInfo) (environment : String) :
    ∀ (ps : List Project) (st : StoreState) (acc : List DeploymentRec),
      (∀ p ∈ ps, p ∈ st.projects) →
      (webhookFold ci environment ps (st, acc)).1.projects = st.projects
    ∧ (webhookFold ci environment ps (st, acc)).1.createFailures = st.createFailures
    ∧ (webhookFold ci environment ps (st, acc)).2.length
        = acc.length + (ps.filter (fun p => !(st.createFailures.contains p.id))).length
    ∧ ∀ d ∈ (webhookFold ci environment ps (st, acc)).2,
        d ∈ acc ∨ (d.status = Status.queued
          ∧ d.commitSha = ci.bind (fun c => c.commitSha)) := by
  intro ps
  induction ps with
  | nil =>
    intro st acc _
    refine ⟨rfl, rfl, by simp [webhookFold], ?_⟩
    intro d hd
    exact Or.inl (by simpa [webhookFold] using hd)
  | cons p ps ih =>
    intro st acc hmem
    have hp : p ∈ st.projects := hmem p (by simp)
    have hfind : ∃ q, st.projects.find? (fun q => q.id == p.id) = some q := by
      have hsome : (st.projects.find? (fun q => q.id == p.id)).isSome := by
        rw [List.find?_isSome]
        exact ⟨p, hp, by simp⟩
      exact Option.isSome_iff_exists.mp hsome
    obtain ⟨q, hq⟩ := hfind
    by_cases hcf : st.createFailures.contains p.id
    · have hmemf : p.id ∈ st.createFailures := by simpa using hcf
      have hstep : queueDeployment st p.id ci environment
          = Except.error "Failed to create deployment" := by
        unfold queueDeployment
        rw [hq]
        simp [hmemf]
      have hfold : webhookFold ci environment (p :: ps) (st, acc)
          = webhookFold ci environment ps (st, acc) := by
        unfold webhookFold
        simp only [List.foldl_cons, hstep]
      rw [hfold]
      have hres := ih st acc (fun x hx => hmem x (by simp [hx]))
      refine ⟨hres.1, hres.2.1, ?_, hres.2.2.2⟩
      rw [hres.2.2.1]
      simp [List.filter_cons, hmemf]
    · have hmemf : p.id ∉ st.createFailures := by simpa using hcf
      have hstep : queueDeployment st p.id ci environment
          = Except.ok
            ({ st with
                deployments := st.deployments ++ [mkDeploymentRow st q p.id ci environment]
                nextId := st.nextId + 1 },
              mkDeploymentRow st q p.id ci environment) := by
        unfold queueDeployment
        rw [hq]
        simp [hmemf]
      have hfold : webhookFold ci environment (p :: ps) (st, acc)
          = webhookFold ci environment ps
            ({ st with
                deployments := st.deployments ++ [mkDeploymentRow st q p.id ci environment]
                nextId := st.nextId + 1 },
              acc ++ [mkDeploymentRow st q p.id ci environment]) := by
        unfold webhookFold
        simp only [List.foldl_cons, hstep]
      rw [hfold]
      have hres := ih
        { st with
            deployments := st.deployments ++ [mkDeploymentRow st q p.id ci environment]
            nextId := st.nextId + 1 }
        (acc ++ [mkDeploymentRow st q p.id ci environment])
        (fun x hx => hmem x (by simp [hx]))
      refine ⟨hres.1, hres.2.1, ?_, ?_⟩
      · rw [hres.2.2.1]
        simp [List.filter_cons, hmemf]
        omega
      · intro d hd
        rcases hres.2.2.2 d hd with hin | hqd
        · rcases List.mem_append.mp hin with hin2 | hin2
          · exact Or.inl hin2
          · refine Or.inr ?_
            have hdrow : d = mkDeploymentRow st q p.id ci environment := by simpa using hin2
            rw [hdrow]
            exact ⟨rfl, rfl⟩
        · exact Or.inr hqd

/-- C7: routing matches projects by exact repository url, production
events additionally by exact branch; with a healthy store exactly one
queued deployment is created per matching project, carrying the commit
sha of the event. -/
theorem c7_routing (store : StoreState) (url branch : String) (ci : Option CommitInfo)
    (environment : String) (hq : store.projectQueryError = false)
    (hc : store.createFailures = []) :
    (handleWebhookDeployment store url branch ci environment).2.length
      = (store.projects.filter (matchesProject url branch environment)).length
  ∧ ∀ d ∈ (handleWebhookDeployment store url branch ci environment).2,
      d.status = Status.queued ∧ d.commitSha = ci.bind (fun c => c.commitSha) := by
  have hsub : ∀ p ∈ store.projects.filter (matchesProject url branch environment),
      p ∈ store.projects := fun p hp => (List.mem_filter.mp hp).1
  have hspec := webhookFold_spec ci environment
    (store.projects.filter (matchesProject url branch environment)) store [] hsub
  have hh : handleWebhookDeployment store url branch ci environment
      = webhookFold ci environment
        (store.projects.filter (matchesProject url branch environment)) (store, []) := by
    unfold handleWebhookDeployment
    rw [hq]
    simp
  rw [hh]
  constructor
  · rw [hspec.2.2.1, hc]
    simp
  · intro d hd
    rcases hspec.2.2.2 d hd with hin | hqd
    · simp at hin
    · exact hqd

/-- The registered project of webhook scenario A. -/
def projA : Project :=
  { id := 3, name := "P", slug := "p", repository := some ⟨"r1.git", "main"⟩,
    buildSettings := { command := none, directory := "dist" } }

/-- A healthy store holding only that project. -/
def storeA : StoreState :=
  { projects := [projA], deployments := [], nextId := 10,
    projectQueryError := false, createFailures := [] }

/-- Commit info of webhook scenario A. -/
def ciA : CommitInfo :=
  { commitSha := some "abc123", commitMessage := some "fix", branch := some "main" }

/-- C7 witness, scenario A: a production event for r1.git main creates
exactly one queued deployment with commit sha abc123. -/
theorem c7_routing_witness :
    storeA.projectQueryError = false
  ∧ storeA.createFailures = []
  ∧ (handleWebhookDeployment storeA "r1.git" "main" (some ciA) "production").2.length = 1
  ∧ ∀ d ∈ (handleWebhookDeployment storeA "r1.git" "main" (some ciA) "production").2,
      d.status = Status.queued ∧ d.commitSha = some "abc123" := by
  have h := c7_routing storeA "r1.git" "main" (some ciA) "production" rfl rfl
  refine ⟨rfl, rfl, ?_, ?_⟩
  · rw [h.1]
    decide
  · intro d hd
    simpa using h.2 d hd

/-- C10: for any store failure pattern, the generic webhook route answers
200 with deployments_triggered equal to the number of matching projects
whose insert succeeded - a project-query store error or per-project
create failures shrink the count (possibly to zero) instead of throwing. -/
theorem c10_webhook_total (store : StoreState) (body : GenericBody) (url : String)
    (hu : body.repository_url = some url) (hne : url ≠ "") :
    (genericWebhookRoute store body).2.1 = 200
  ∧ (genericWebhookRoute store body).2.2
      = (if store.projectQueryError then 0
         else ((store.projects.filter
             (matchesProject url (jsOrStr body.branch "main") "production")).filter
             (fun p => !(store.createFailures.contains p.id))).length) := by
  have hbeq : (url == "") = false := by
    simp [hne]
  have hroute : genericWebhookRoute store body
      = ((handleWebhookDeployment store url (jsOrStr body.branch "main")
          (some { commitSha := body.commit_sha
                  commitMessage := some (jsOrStr body.commit_message "Manual webhook trigger")
                  branch := some (jsOrStr body.branch "main") }) "production").1, 200,
         (handleWebhookDeployment store url (jsOrStr body.branch "main")
          (some { commitSha := body.commit_sha
                  commitMessage := some (jsOrStr body.commit_message "Manual webhook trigger")
                  branch := some (jsOrStr body.branch "main") }) "production").2.length) := by
    unfold genericWebhookRoute
    rw [hu]
    simp [hbeq]
  rw [hroute]
  refine ⟨rfl, ?_⟩
  by_cases hpe : store.projectQueryError
  · simp [handleWebhookDeployment, hpe]
  · have hsub : ∀ p ∈ store.projects.filter
        (matchesProject url (jsOrStr body.branch "main") "production"),
        p ∈ store.projects := fun p hp => (List.mem_filter.mp hp).1
    have hspec := webhookFold_spec
      (some { commitSha := body.commit_sha
              commitMessage := some (jsOrStr body.commit_message "Manual webhook trigger")
              branch := some (jsOrStr body.branch "main") }) "production"
      (store.projects.filter (matchesProject url (jsOrStr body.branch "main") "production"))
      store [] hsub
    have hh : handleWebhookDeployment store url (jsOrStr body.branch "main")
        (some { commitSha := body.commit_sha
                commitMessage := some (jsOrStr body.commit_message "Manual webhook trigger")
                branch := some (jsOrStr body.branch "main") }) "production"
        = webhookFold
          (some { commitSha := body.commit_sha
                  commitMessage := some (jsOrStr body.commit_message "Manual webhook trigger")
                  branch := some (jsOrStr body.branch "main") }) "production"
          (store.projects.filter (matchesProject url (jsOrStr body.branch "main") "production"))
          (store, []) := by
      unfold handleWebhookDeployment
      simp [hpe]
    rw [hh, hspec.2.2.1]
    simp [hpe]

/-- A store whose project query fails, for the C10 witness. -/
def storeErrW : StoreState :=
  { projects := [projA], deployments := [], nextId := 0,
    projectQueryError := true, createFailures := [] }

/-- A well-formed generic webhook body for the C10 witness. -/
def bodyW : GenericBody :=
  { repository_url := some "r1.git", branch := none,
    commit_sha := none, commit_message := none }

/-- C10 witness: with the project query failing, the route still answers
200 and reports zero deployments triggered. -/
theorem c10_webhook_total_witness :
    bodyW.repository_url = some "r1.git"
  ∧ "r1.git" ≠ ""
  ∧ (genericWebhookRoute storeErrW bodyW).2.1 = 200
  ∧ (genericWebhookRoute storeErrW bodyW).2.2 = 0 := by
  have h := c10_webhook_total storeErrW bodyW "r1.git" rfl (by decide)
  refine ⟨rfl, by decide, h.1, ?_⟩
  rw [h.2]
  decide

mutual
/-- A file tree node: a file with a byte size, or a directory. -/
inductive FsTree where
  | file (size : Nat)
  | dir (entries : FsEntries)

/-- Directory entries: a name-keyed list of child nodes. -/
inductive FsEntries where
  | nil
  | cons (name : String) (tree : FsTree) (rest : FsEntries)
end

/-- First entry with the given name. -/
def lookupEntry : FsEntries → String → Option FsTree
  | FsEntries.nil, _ => none
  | FsEntries.cons n t rest, name => if n == name then some t else lookupEntry rest name

/-- The entry list of a directory node; none for a file. -/
def entriesOf : FsTree → Option FsEntries
  | FsTree.dir es => some es
  | FsTree.file _ => none

/-- path.join(repoPath, buildDirectory) followed by readdir: the empty
string and "." resolve to the repository root itself, any other name must
be a directory entry of the root. -/
def resolveBuildDir (root : FsEntries) (dirname : String) : Option FsEntries :=
  if dirname == "" || dirname == "." then some root
  else
    match lookupEntry root dirname with
    | some t => entriesOf t
    | none => none

/-- fs.access(path.join(repoPath, package.json)) succeeds. -/
def hasPackageJson (root : FsEntries) : Bool :=
  (lookupEntry root "package.json").isSome

/-- A root-level index file exists. -/
def rootIndexExists (root : FsEntries) : Bool :=
  (lookupEntry root "index.html").isSome

mutual
/-- processAssets on one node: the sizes of all files below it. -/
def assetSizesTree : FsTree → List Nat
  | FsTree.file n => [n]
  | FsTree.dir es => assetSizesEntries es

/-- processAssets on an entry list: the sizes of all files below it. -/
def assetSizesEntries : FsEntries → List Nat
  | FsEntries.nil => []
  | FsEntries.cons _ t rest => assetSizesTree t ++ assetSizesEntries rest
end

mutual
/-- Total bytes under one node. -/
def totalBytesTree : FsTree → Nat
  | FsTree.file n => n
  | FsTree.dir es => totalBytesEntries es

/-- Total bytes under an entry list. -/
def totalBytesEntries : FsEntries → Nat
  | FsEntries.nil => 0
  | FsEntries.cons _ t rest => totalBytesTree t + totalBytesEntries rest
end

mutual
/-- The asset sizes of a node sum to its total bytes. -/
theorem assetSizes_sum_tree (t : FsTree) : (assetSizesTree t).sum = totalBytesTree t := by
  cases t with
  | file n => simp [assetSizesTree, totalBytesTree]
  | dir es => simpa [assetSizesTree, totalBytesTree] using assetSizes_sum_entries es

/-- The asset sizes of an entry list sum to its total bytes. -/
theorem assetSizes_sum_entries (es : FsEntries) :
    (assetSizesEntries es).sum = totalBytesEntries es := by
  cases es with
  | nil => simp [assetSizesEntries, totalBytesEntries]
  | cons n t rest =>
    simp [assetSizesEntries, totalBytesEntries, List.sum_append,
      assetSizes_sum_tree t, assetSizes_sum_entries rest]
end

/-- assets.reduce((total, a) => total + a.size, 0) is the list sum. -/
theorem foldl_add_sum (l : List Nat) : ∀ a : Nat, l.foldl (fun x y => x + y) a = a + l.sum := by
  induction l with
  | nil => intro a; simp
  | cons x xs ih =>
    intro a
    simp [List.foldl_cons, ih, Nat.add_assoc]

/-- Outcome of one buildAndDeploy pipeline. -/
inductive BuildResult where
  | ready (size : Nat)
  | error (message : String)
deriving DecidableEq, Repr

/-- The externally determined outcomes a pipeline run consumes: the clone
result, the exit codes of npm install and of the build command, and the
tree the build command leaves behind when it runs. -/
structure PipelineEnv where
  fetched : Except String FsEntries
  installExit : Int
  buildExit : Int
  postBuildRoot : FsEntries

/-- DeploymentService.buildAndDeploy as one pure function: fetch, then
install only when a package.json exists, then the build command only when
one is configured (JavaScript-falsy check), then processAssets over the
configured output directory (its errors are swallowed, yielding no
assets), then deployToCDN whose copyDirectory throws when the output
directory does not exist; success writes ready with size the summed asset
sizes. No step ever consults an index file. -/
def buildAndDeployPure (project : Project) (env : PipelineEnv) : BuildResult :=
  match project.repository with
  | none => BuildResult.error "No repository configured"
  | some _ =>
    match env.fetched with
    | Except.error m => BuildResult.error m
    | Except.ok root =>
      if hasPackageJson root && env.installExit != 0 then
        BuildResult.error ("npm install failed with code " ++ toString env.installExit)
      else
        let cmdPresent := jsTruthy project.buildSettings.command
        if cmdPresent && env.buildExit != 0 then
          BuildResult.error ("Build command failed with code " ++ toString env.buildExit)
        else
          let root2 := if cmdPresent then env.postBuildRoot else root
          let assets :=
            match resolveBuildDir root2 project.buildSettings.directory with
            | some es => assetSizesEntries es
            | none => []
          match resolveBuildDir root2 project.buildSettings.directory with
          | some _ => BuildResult.ready (assets.foldl (fun x y => x + y) 0)
          | none => BuildResult.error "ENOENT: no such file or directory"

/-- A repository holding only a root index.html of 100 bytes. -/
def repoIdx : FsEntries := FsEntries.cons "index.html" (FsTree.file 100) FsEntries.nil

/-- A static project whose configured output directory is dist. -/
def projC8 : Project :=
  { id := 1, name := "s", slug := "s", repository := some ⟨"r.git", "main"⟩,
    buildSettings := { command := none, directory := "dist" } }

/-- A pipeline environment where the clone returns that repository. -/
def envC8 : PipelineEnv :=
  { fetched := Except.ok repoIdx, installExit := 0, buildExit := 0,
    postBuildRoot := FsEntries.nil }

/-- C8 counterexample: no manifest, no build command, a root index file
present - yet the pipeline ends in error, because the code never checks
for an index file and the configured output directory dist is absent. -/
theorem c8_counterexample :
    hasPackageJson repoIdx = false
  ∧ jsTruthy projC8.buildSettings.command = false
  ∧ rootIndexExists repoIdx = true
  ∧ buildAndDeployPure projC8 envC8
      = BuildResult.error "ENOENT: no such file or directory" := by
  decide

/-- C8 amended: with no manifest and no build command, the pipeline never
consults an index file - it reaches ready exactly when the configured
output directory resolves, and then the recorded size is the total bytes
under that directory (the published output); when the directory is absent
the copy step throws and the deployment ends in error even if a root
index file exists. -/
theorem c8_amended (project : Project) (env : PipelineEnv) (root : FsEntries)
    (r : RepoRef) (hrepo : project.repository = some r)
    (hfetch : env.fetched = Except.ok root)
    (hnom : hasPackageJson root = false)
    (hnocmd : jsTruthy project.buildSettings.command = false) :
    (∀ es, resolveBuildDir root project.buildSettings.directory = some es →
        buildAndDeployPure project env = BuildResult.ready (totalBytesEntries es))
  ∧ (resolveBuildDir root project.buildSettings.directory = none →
        ∃ m, buildAndDeployPure project env = BuildResult.error m) := by
  have hred : buildAndDeployPure project env
      = (match resolveBuildDir root project.buildSettings.directory with
        | some es => BuildResult.ready ((assetSizesEntries es).foldl (fun x y => x + y) 0)
        | none => BuildResult.error "ENOENT: no such file or directory") := by
    unfold buildAndDeployPure
    rw [hrepo, hfetch]
    simp [hnom, hnocmd]
    cases resolveBuildDir root project.buildSettings.directory <;> simp
  constructor
  · intro es hes
    rw [hred, hes]
    simp only
    rw [foldl_add_sum, Nat.zero_add, assetSizes_sum_entries]
  · intro hnone
    rw [hred, hnone]
    exact ⟨"ENOENT: no such file or directory", rfl⟩

/-- A static project publishing the repository root itself. -/
def projC8root : Project :=
  { id := 2, name := "s2", slug := "s2", repository := some ⟨"r.git", "main"⟩,
    buildSettings := { command := none, directory := "." } }

/-- C8 amended witness: with output directory "." the same repository
deploys ready with size the total published bytes. -/
theorem c8_amended_witness :
    projC8root.repository = some ⟨"r.git", "main"⟩
  ∧ envC8.fetched = Except.ok repoIdx
  ∧ hasPackageJson repoIdx = false
  ∧ jsTruthy projC8root.buildSettings.command = false
  ∧ resolveBuildDir repoIdx projC8root.buildSettings.directory = some repoIdx
  ∧ buildAndDeployPure projC8root envC8 = BuildResult.ready (totalBytesEntries repoIdx) :=
  ⟨rfl, rfl, by decide, by decide, rfl,
    (c8_amended projC8root envC8 repoIdx ⟨"r.git", "main"⟩ rfl rfl (by decide)
      (by decide)).1 repoIdx rfl⟩

/-- Options passed to a child process: working directory and the optional
timeout in milliseconds. Node terminates the process with an error when a
timeout is set and exceeded; with no timeout the process runs to
completion however long it takes. -/
structure ExecOptions where
  cwd : String
  timeoutMs : Option Nat
deriving DecidableEq, Repr

/-- The execAsync options of the npm install step of runBuild: 5 minutes. -/
def runBuildInstallOptions (cwd : String) : ExecOptions :=
  { cwd := cwd, timeoutMs := some 300000 }

/-- The execAsync options of the build-command step of runBuild: 10 minutes. -/
def runBuildCommandOptions (cwd : String) : ExecOptions :=
  { cwd := cwd, timeoutMs := some 600000 }

/-- The spawn options of installDependencies and runBuildCommand in the
executor wired to the queue: cwd and piped stdio only - no timeout. -/
def spawnStageOptions (cwd : String) : ExecOptions :=
  { cwd := cwd, timeoutMs := none }

/-- Semantics of running a child process under the given options for a
given wall-clock duration: with a timeout set, exceeding it terminates
the run as a TimeoutError; otherwise the exit code is returned. -/
def runProcess (opts : ExecOptions) (durationMs : Nat) (exitCode : Int) :
    Except String Int :=
  match opts.timeoutMs with
  | some t => if durationMs > t then Except.error "TimeoutError" else Except.ok exitCode
  | none => Except.ok exitCode

/-- C9 counterexample: the install/build stages actually executed spawn
their subprocesses with no timeout option, so a run lasting over five
(or ten) minutes completes normally instead of failing with TimeoutError. -/
theorem c9_counterexample :
    (spawnStageOptions "/repo").timeoutMs = none
  ∧ runProcess (spawnStageOptions "/repo") 300001 0 = Except.ok 0
  ∧ runProcess (spawnStageOptions "/repo") 600001 0 = Except.ok 0 :=
  ⟨rfl, rfl, rfl⟩

/-- C9 amended: the exec-based runBuild helper does pass the 5-minute
install and 10-minute build timeouts and those runs fail with
TimeoutError when exceeded, but the spawn-based install/build stages of
the executor wired to the deployment queue pass no timeout at all, so
their runs never time out whatever the duration. -/
theorem c9_amended (cwd : String) (dur : Nat) (ex : Int) :
    (runBuildInstallOptions cwd).timeoutMs = some 300000
  ∧ (runBuildCommandOptions cwd).timeoutMs = some 600000
  ∧ (dur > 300000 → runProcess (runBuildInstallOptions cwd) dur ex
      = Except.error "TimeoutError")
  ∧ (dur > 600000 → runProcess (runBuildCommandOptions cwd) dur ex
      = Except.error "TimeoutError")
  ∧ runProcess (spawnStageOptions cwd) dur ex = Except.ok ex := by
  refine ⟨rfl, rfl, ?_, ?_, rfl⟩
  · intro h
    simp [runProcess, runBuildInstallOptions, h]
  · intro h
    simp [runProcess, runBuildCommandOptions, h]

/-- C9 amended witness: a 600001 ms run times out under the runBuild
install options but completes under the executor spawn options. -/
theorem c9_amended_witness :
    (600001 > 300000
      ∧ runProcess (runBuildInstallOptions "/repo") 600001 0 = Except.error "TimeoutError")
  ∧ (600001 > 600000
      ∧ runProcess (runBuildCommandOptions "/repo") 600001 0 = Except.error "TimeoutError")
  ∧ runProcess (spawnStageOptions "/repo") 600001 0 = Except.ok 0 :=
  ⟨⟨by decide, (c9_amended "/repo" 600001 0).2.2.1 (by decide)⟩,
   ⟨by decide, (c9_amended "/repo" 600001 0).2.2.2.1 (by decide)⟩,
   (c9_amended "/repo" 600001 0).2.2.2.2⟩
